import Mathlib

/-!
# Verification of the s5cmd filesystem-metadata restoration core

Shallow embedding of `src/storage/fs_linux.go` and `src/storage/fs_windows.go`:
the time accessors (`GetFileTime`, `SetFileTime`), the identity translation
(`strconv.Atoi` on the UID/GID model, `StringAsSid` on the principal model),
the ownership/ACL applier (`MetadataManager.Perform`) and the ancestor-chain
propagation (`SetFileUserGroup` on the principal model).

Platform primitives (`SetNamedSecurityInfo`, `os.Chtimes`, `syscall.SetFileTime`,
`os.Lchown`) are modelled by their documented contracts as explicit state
transformers over a finite-map filesystem; fallible native calls are gated by
explicit oracles so that failure paths are expressible.  Every native mutation
is recorded in a trace so that "the apply primitive executed at most once" is a
statement about the trace.
-/

deriving instance DecidableEq for Except

namespace S5cmd

/-! ## Go `time.Time` model

A `time.Time` wall-clock instant is modelled by its count of nanoseconds since
the Go zero time (January 1, year 1, 00:00:00 UTC).  `IsZero` tests the zero
value, `UnixNano` shifts to the Unix epoch.  This matches Go's internal
representation at nanosecond precision.
-/

structure GoTime where
  v : Int
deriving DecidableEq, Repr

/-- Nanoseconds between the Go zero time (year 1) and the Unix epoch (1970). -/
def unixEpochNs : Int := 62135596800 * 1000000000

def GoTime.isZero (t : GoTime) : Bool := t.v == 0

def GoTime.unixNano (t : GoTime) : Int := t.v - unixEpochNs

/-- Go `time.Unix(sec, nsec)`. -/
def timeUnix (sec nsec : Int) : GoTime := ⟨sec * 1000000000 + nsec + unixEpochNs⟩

/-- The Go zero `time.Time`. -/
def zeroTime : GoTime := ⟨0⟩

/-! ## Error model (§7 taxonomy as realised in the code) -/

/-- The error wrapped inside an `InvalidOwnershipFormatError` (`Err` field). -/
inductive WrapErr where
  | atoiSyntax (s : String)
  | atoiRange (s : String)
  | sidParse (msg : String)
  | sidLookup (msg : String)
deriving DecidableEq, Repr

inductive GoErr where
  | notFound (path : String)
  | invalidOwnershipFormat (inner : WrapErr)
  | applyFailed (path : String)
deriving DecidableEq, Repr

/-! ## Linux platform: stat structure and time accessor (`fs_linux.go`) -/

/-- A `syscall.Timespec` (seconds, nanoseconds). -/
structure Timespec where
  sec : Int
  nsec : Int
deriving DecidableEq, Repr

/-- The fields of `syscall.Stat_t` that `fs_linux.go` reads: `Atim`, `Mtim`,
`Ctim` (status-change time — Linux `stat` exposes no birth/creation time),
`Uid` and `Gid`.  `fi.ModTime()` is derived from `Mtim`. -/
structure Stat_t where
  Atim : Timespec
  Mtim : Timespec
  Ctim : Timespec
  Uid : Int
  Gid : Int
deriving DecidableEq, Repr

/-- The Linux filesystem state visible to the embedded functions. -/
def LinuxFS := String → Option Stat_t

def updLinuxFS (fs : LinuxFS) (p : String) (st : Stat_t) : LinuxFS :=
  fun q => if q == p then some st else fs q

/-- Trace of native mutation calls issued by the embedded functions. -/
inductive NOp where
  | chtimes (f : String) (a m : GoTime)
  | lchown (f : String) (uid gid : Int)
  | winSetFileTime (f : String) (cft aft mft : Int)
deriving DecidableEq, Repr

/-- `time.Time.Unix()` / `.Nanosecond()` as used by `os.Chtimes`: floor the
instant into whole Unix seconds plus a nanosecond remainder in `[0, 1e9)`
(for the positive modulus `1e9`, Euclidean division is exactly this floor). -/
def toTimespec (t : GoTime) : Timespec :=
  ⟨t.unixNano / 1000000000, t.unixNano % 1000000000⟩

/-- `GetFileTime` of `fs_linux.go`: stat the file; creation position is filled
from `Ctim` (status-change time), access from `Atim`, and modification from the
portable `fi.ModTime()` (i.e. `Mtim`).  Returns `(aTime, mTime, cTime)`. -/
def GetFileTimeLinux (fs : LinuxFS) (filename : String) :
    Except GoErr (GoTime × GoTime × GoTime) :=
  match fs filename with
  | none => .error (.notFound filename)
  | some stat =>
    let cTime := timeUnix stat.Ctim.sec stat.Ctim.nsec
    let aTime := timeUnix stat.Atim.sec stat.Atim.nsec
    let mTime := timeUnix stat.Mtim.sec stat.Mtim.nsec
    .ok (aTime, mTime, cTime)

/-- `SetFileTime` of `fs_linux.go`.  Returns the call result, the new
filesystem state, and the trace of native write calls. -/
def SetFileTimeLinux (fs : LinuxFS) (filename : String)
    (accessTime modificationTime _creationTime : GoTime) :
    Except GoErr Unit × LinuxFS × List NOp :=
  if accessTime.isZero && modificationTime.isZero then
    -- Nothing recorded in s3. Return fast.
    (.ok (), fs, [])
  else
    let aRes : Except GoErr GoTime :=
      if accessTime.isZero then (GetFileTimeLinux fs filename).map (·.1)
      else .ok accessTime
    match aRes with
    | .error e => (.error e, fs, [])
    | .ok accessTime =>
      let mRes : Except GoErr GoTime :=
        if modificationTime.isZero then (GetFileTimeLinux fs filename).map (·.2.1)
        else .ok modificationTime
      match mRes with
      | .error e => (.error e, fs, [])
      | .ok modificationTime =>
        -- os.Chtimes(filename, accessTime, modificationTime)
        match fs filename with
        | none =>
          (.error (.notFound filename), fs, [.chtimes filename accessTime modificationTime])
        | some stat =>
          (.ok (),
           updLinuxFS fs filename
             { stat with Atim := toTimespec accessTime, Mtim := toTimespec modificationTime },
           [.chtimes filename accessTime modificationTime])

/-! ## Windows platform: FILETIME and the time accessor (`fs_windows.go`) -/

/-- A Windows `syscall.Filetime`, modelled by its count of 100-nanosecond
intervals since January 1, 1601. -/
structure Filetime where
  ft : Int
deriving DecidableEq, Repr

/-- 100ns intervals between the FILETIME epoch (1601) and the Unix epoch. -/
def filetimeEpochDiff : Int := 116444736000000000

/-- `syscall.Filetime.Nanoseconds()`: shift to Unix epoch, scale to ns. -/
def Filetime.nanoseconds (f : Filetime) : Int := (f.ft - filetimeEpochDiff) * 100

/-- `syscall.NsecToFiletime`: Go integer division truncates toward zero. -/
def nsecToFiletime (nsec : Int) : Filetime := ⟨Int.tdiv nsec 100 + filetimeEpochDiff⟩

/-- The fields of `syscall.Win32FileAttributeData` read by `fs_windows.go`;
`fi.ModTime()` on Windows is derived from `LastWriteTime`. -/
structure Win32FileAttributeData where
  CreationTime : Filetime
  LastAccessTime : Filetime
  LastWriteTime : Filetime
deriving DecidableEq, Repr

def WinFS := String → Option Win32FileAttributeData

def updWinFS (fs : WinFS) (p : String) (d : Win32FileAttributeData) : WinFS :=
  fun q => if q == p then some d else fs q

/-- `GetFileTime` of `fs_windows.go`: creation from `CreationTime`, access from
`LastAccessTime`, modification from `fi.ModTime()` (= `LastWriteTime`),
each via `time.Unix(0, ft.Nanoseconds())`. -/
def GetFileTimeWin (fs : WinFS) (filename : String) :
    Except GoErr (GoTime × GoTime × GoTime) :=
  match fs filename with
  | none => .error (.notFound filename)
  | some d =>
    let cTime := timeUnix 0 d.CreationTime.nanoseconds
    let aTime := timeUnix 0 d.LastAccessTime.nanoseconds
    let mTime := timeUnix 0 d.LastWriteTime.nanoseconds
    .ok (aTime, mTime, cTime)

/-- `SetFileTime` of `fs_windows.go`.  The fast return requires all three
fields zero; otherwise an `else if` chain refills at most ONE unset field by
re-reading the file, then a single `syscall.SetFileTime` writes creation,
access and last-write times together. -/
def SetFileTimeWin (fs : WinFS) (filename : String)
    (accessTime modificationTime creationTime : GoTime) :
    Except GoErr Unit × WinFS × List NOp :=
  if accessTime.isZero && modificationTime.isZero && creationTime.isZero then
    -- Nothing recorded in s3. Return fast.
    (.ok (), fs, [])
  else
    let filled : Except GoErr (GoTime × GoTime × GoTime) :=
      if accessTime.isZero then
        (GetFileTimeWin fs filename).map (fun r => (r.1, modificationTime, creationTime))
      else if modificationTime.isZero then
        (GetFileTimeWin fs filename).map (fun r => (accessTime, r.2.1, creationTime))
      else if creationTime.isZero then
        (GetFileTimeWin fs filename).map (fun r => (accessTime, modificationTime, r.2.2))
      else .ok (accessTime, modificationTime, creationTime)
    match filled with
    | .error e => (.error e, fs, [])
    | .ok (accessTime, modificationTime, creationTime) =>
      let aft := nsecToFiletime accessTime.unixNano
      let mft := nsecToFiletime modificationTime.unixNano
      let cft := nsecToFiletime creationTime.unixNano
      -- syscall.Open fails when the file is missing; otherwise one native
      -- syscall.SetFileTime(fd, &cft, &aft, &mft) writes all three fields.
      match fs filename with
      | none => (.error (.notFound filename), fs, [])
      | some _ =>
        (.ok (),
         updWinFS fs filename ⟨cft, aft, mft⟩,
         [.winSetFileTime filename cft.ft aft.ft mft.ft])

/-! ## Identity translation

`strconv.Atoi` on the UID/GID model; `StringAsSid` on the principal model.
-/

/-- `strconv.Atoi`: optional sign, at least one digit, all digits, value within
the 64-bit int range; syntax failures and range failures are distinguished as
in `strconv.NumError`. -/
def goAtoi (s : String) : Except WrapErr Int :=
  let cs := s.data
  let signAndDigits : Int × List Char :=
    match cs with
    | '+' :: rest => (1, rest)
    | '-' :: rest => (-1, rest)
    | _ => (1, cs)
  let sign := signAndDigits.1
  let ds := signAndDigits.2
  if ds.isEmpty || ds.any (fun c => !c.isDigit) then .error (.atoiSyntax s)
  else
    let n : Nat := ds.foldl (fun acc c => acc * 10 + (c.toNat - '0'.toNat)) 0
    let v : Int := sign * (n : Int)
    if v < -(2 ^ 63) || v > 2 ^ 63 - 1 then .error (.atoiRange s)
    else .ok v

/-- `SetFileUserGroup` of `fs_linux.go`: parse both identities with `Atoi`
(wrapping failures in `InvalidOwnershipFormatError`), then one `os.Lchown`. -/
def SetFileUserGroupLinux (fs : LinuxFS) (filename userId groupId : String) :
    Except GoErr Unit × LinuxFS × List NOp :=
  match goAtoi userId with
  | .error e => (.error (.invalidOwnershipFormat e), fs, [])
  | .ok uid =>
    match goAtoi groupId with
    | .error e => (.error (.invalidOwnershipFormat e), fs, [])
    | .ok gid =>
      match fs filename with
      | none => (.error (.notFound filename), fs, [.lchown filename uid gid])
      | some stat =>
        (.ok (), updLinuxFS fs filename { stat with Uid := uid, Gid := gid },
         [.lchown filename uid gid])

/-- A Windows security identifier, abstract here; rendered SID strings and
account names live in the oracles below. -/
abbrev Sid := String

/-- Substring membership, as Go `strings.Contains`. -/
def leadsWith : List Char → List Char → Bool
  | [], _ => true
  | _ :: _, [] => false
  | a :: as, b :: bs => a == b && leadsWith as bs

def hasSub (needle : List Char) : List Char → Bool
  | [] => leadsWith needle []
  | c :: cs => leadsWith needle (c :: cs) || hasSub needle cs

def goStringsContains (haystack needle : String) : Bool :=
  hasSub needle.data haystack.data

/-- The platform error message `StringAsSid` looks for before falling back to
a name lookup. -/
def invalidSidStructureMsg : String := "The security ID structure is invalid."

/-- `StringAsSid` of `fs_windows.go`, parameterised over the two platform
calls it makes: `windows.StringToSid` (direct parse of a canonical SID string)
and `windows.LookupSID` (account/group-name directory lookup), each returning
either a SID or an error message. -/
def StringAsSid (s2s l2s : String → Except String Sid) (principal : String) :
    Except GoErr Sid :=
  match s2s principal with
  | .ok sid => .ok sid
  | .error e =>
    if goStringsContains e invalidSidStructureMsg then
      match l2s principal with
      | .ok sid => .ok sid
      | .error e2 => .error (.invalidOwnershipFormat (.sidLookup e2))
    else
      .error (.invalidOwnershipFormat (.sidParse e))

/-! ## Windows security descriptors and `SetNamedSecurityInfo`

`SetNamedSecurityInfo` / `GetNamedSecurityInfo` are modelled by their
documented contract: only the security attributes named in the
`SecurityInformation` flags word are written; the owner/group/DACL arguments
for unnamed attributes are ignored.  The `PROTECTED_DACL` /
`UNPROTECTED_DACL` flags set or clear the DACL-protection bit.
-/

/-- An access-control entry, abstract (its internals are never inspected). -/
abbrev ACE := String

/-- The security attributes of one filesystem object. -/
structure SecObj where
  owner : Option Sid
  group : Option Sid
  dacl : List ACE
  daclProtected : Bool
deriving DecidableEq, Repr

/-- Security state of the filesystem: every path has attributes (objects the
walk touches are assumed to exist; native-call failure is modelled by the
oracle in `Perform`). -/
def SecState := String → SecObj

def updSec (s : SecState) (p : String) (o : SecObj) : SecState :=
  fun q => if q == p then o else s q

/-- The `SecurityInformation` flags used by `fs_windows.go`. -/
structure SIFlags where
  ownerSI : Bool
  groupSI : Bool
  daclSI : Bool
  protectedSI : Bool
  unprotectedSI : Bool
deriving DecidableEq, Repr

/-- `windows.OWNER_SECURITY_INFORMATION` alone (first write in `Perform`). -/
def ownerOnlyFlags : SIFlags := ⟨true, false, false, false, false⟩

/-- `DACL_SECURITY_INFORMATION | UNPROTECTED_DACL_SECURITY_INFORMATION`
(second write in `Perform`). -/
def daclUnprotectedFlags : SIFlags := ⟨false, false, true, false, true⟩

/-- Effect of one `SetNamedSecurityInfo` call on the object's attributes,
per the API contract: each attribute is written only when its flag is set. -/
def applySNSI (o : SecObj) (f : SIFlags) (ow gr : Option Sid)
    (d : Option (List ACE)) : SecObj :=
  let o1 := if f.ownerSI then { o with owner := ow } else o
  let o2 := if f.groupSI then { o1 with group := gr } else o1
  if f.daclSI then
    { o2 with
      dacl := d.getD [],
      daclProtected :=
        if f.protectedSI then true
        else if f.unprotectedSI then false
        else o2.daclProtected }
  else o2

/-! ## `MetadataManager.Perform` and the ancestor walk (`fs_windows.go`) -/

/-- The process-wide `MetadataManager` state: the `processedFiles` map,
keyed by path string (the guarding mutex is the reason a sequential model is
faithful: the whole body of `Perform` runs under `metadataLock`). -/
structure MMState where
  processedFiles : List String
deriving DecidableEq, Repr

/-- Trace events: each native security mutation or read issued by `Perform`. -/
inductive Ev where
  | ownerWrite (p : String) (ow gr : Option Sid)
  | daclRead (p : String)
  | daclWrite (p : String) (d : List ACE)
deriving DecidableEq, Repr

/-- The paths of the owner-write (apply-primitive) events of a trace. -/
def owPaths : List Ev → List String
  | [] => []
  | .ownerWrite p _ _ :: t => p :: owPaths t
  | .daclRead _ :: t => owPaths t
  | .daclWrite _ _ :: t => owPaths t

/-- Result of a `Perform`/walk call: manager state, security state, native
trace, and the Go error value. -/
structure MMRes where
  st : MMState
  sec : SecState
  trace : List Ev
  res : Except GoErr Unit

/-- `MetadataManager.Perform`: under the lock, return early when the path is
already in `processedFiles`; otherwise mark it processed FIRST, then (inside
`winio.RunWithPrivileges`) issue the owner-only `SetNamedSecurityInfo`, read
the DACL back, and rewrite it unprotected.  The oracle `ok` decides whether
the native calls on this path succeed; on failure the first native call has
been attempted and its error is returned, with the path left marked. -/
def Perform (ok : String → Bool) (st : MMState) (sec : SecState)
    (filename : String) (uidSid gidSid : Option Sid) : MMRes :=
  if st.processedFiles.contains filename then ⟨st, sec, [], .ok ()⟩
  else
    let st' : MMState := ⟨filename :: st.processedFiles⟩
    if ok filename then
      -- SetNamedSecurityInfo(filename, SE_FILE_OBJECT,
      --   OWNER_SECURITY_INFORMATION, uidSid, gidSid, nil, nil)
      let sec1 := updSec sec filename
        (applySNSI (sec filename) ownerOnlyFlags uidSid gidSid none)
      -- GetNamedSecurityInfo(...); sd.DACL()
      let dacl := (sec1 filename).dacl
      -- SetNamedSecurityInfo(filename, SE_FILE_OBJECT,
      --   DACL_SECURITY_INFORMATION|UNPROTECTED_DACL_SECURITY_INFORMATION,
      --   nil, nil, dacl, nil)
      let sec2 := updSec sec1 filename
        (applySNSI (sec1 filename) daclUnprotectedFlags none none (some dacl))
      ⟨st', sec2,
       [.ownerWrite filename uidSid gidSid, .daclRead filename,
        .daclWrite filename dacl],
       .ok ()⟩
    else
      ⟨st', sec, [.ownerWrite filename uidSid gidSid],
       .error (.applyFailed filename)⟩

/-! ## Paths and `filepath.Dir`

Paths are modelled structurally: an absolute flag plus a list of cleaned
components, rendered with `/` separators.  On cleaned slash-separated paths
this satisfies Go's `path/filepath.Dir` contract (drop the last element;
`Dir("/") = "/"`, `Dir(".") = "."`); the Windows build additionally
normalises `/` to `\`, and the walk's stopping test checks `"."`, `"/"`
and `"\\"` alike, so the walk structure is separator-independent.
-/

structure GoPath where
  abs : Bool
  comps : List String
deriving DecidableEq, Repr

def render (p : GoPath) : String :=
  match p.comps with
  | [] => if p.abs then "/" else "."
  | cs => (if p.abs then "/" else "") ++ String.intercalate "/" cs

/-- `filepath.Dir` on the structural model: drop the final component. -/
def dirP (p : GoPath) : GoPath := ⟨p.abs, p.comps.dropLast⟩

/-- Go's sequencing of two fallible steps: when the first errs, return it
(its trace stands); otherwise run the continuation from its state and
concatenate the traces. -/
def seqRes (r : MMRes) (k : MMState → SecState → MMRes) : MMRes :=
  match r.res with
  | .error e => ⟨r.st, r.sec, r.trace, .error e⟩
  | .ok () =>
    let r2 := k r.st r.sec
    ⟨r2.st, r2.sec, r.trace ++ r2.trace, r2.res⟩

/-- The ancestor loop of `SetFileUserGroup` in `fs_windows.go`:

    for parentDir != "." && parentDir != "/" && parentDir != "\\" {
        Perform(parentDir); nextPath := Dir(parentDir)
        if nextPath == parentDir { break }
        parentDir = nextPath
    }
    Perform(parentDir)

The recursion is bounded by the component count (each `Dir` drops one
component), so a fuel argument of `comps.length + 1` makes the model total
without ever reaching the fuel-exhausted case; that case repeats the
post-loop `Perform`, the behaviour the loop exhibits at its natural exit. -/
def ancLoop (ok : String → Bool) :
    Nat → MMState → SecState → GoPath → Option Sid → Option Sid → MMRes
  | 0, st, sec, p, u, g => Perform ok st sec (render p) u g
  | Nat.succ n, st, sec, p, u, g =>
    if render p != "." && render p != "/" && render p != "\\" then
      seqRes (Perform ok st sec (render p) u g) (fun st1 sec1 =>
        if render (dirP p) == render p then
          -- break; then the post-loop Perform(parentDir) with parentDir = p,
          -- silently deduplicated by the gate
          Perform ok st1 sec1 (render p) u g
        else
          ancLoop ok n st1 sec1 (dirP p) u g)
    else
      -- loop guard false: the post-loop Perform(parentDir)
      Perform ok st sec (render p) u g

/-- The identity-translation section of `SetFileUserGroup`'s body: the user
identity is translated first and its failure returned before the group
identity is attempted; an empty string is not translated and yields `none`
(a nil `*windows.SID`). -/
def parseIds (s2s l2s : String → Except String Sid) (userId groupId : String) :
    Except GoErr (Option Sid × Option Sid) :=
  let uidRes : Except GoErr (Option Sid) :=
    if userId != "" then (StringAsSid s2s l2s userId).map some else .ok none
  match uidRes with
  | .error e => .error e
  | .ok uidSid =>
    let gidRes : Except GoErr (Option Sid) :=
      if groupId != "" then (StringAsSid s2s l2s groupId).map some else .ok none
    match gidRes with
    | .error e => .error e
    | .ok gidSid => .ok (uidSid, gidSid)

/-- `SetFileUserGroup` of `fs_windows.go`: no-op when both identities are
empty; otherwise, inside `winio.RunWithPrivileges` (modelled as direct
execution of the body), translate the non-empty identities via `StringAsSid`,
`Perform` the target, then walk the ancestor chain. -/
def SetFileUserGroupWin (ok : String → Bool)
    (s2s l2s : String → Except String Sid) (st : MMState) (sec : SecState)
    (filename : GoPath) (userId groupId : String) : MMRes :=
  if userId == "" && groupId == "" then ⟨st, sec, [], .ok ()⟩
  else
    match parseIds s2s l2s userId groupId with
    | .error e => ⟨st, sec, [], .error e⟩
    | .ok (uidSid, gidSid) =>
      seqRes (Perform ok st sec (render filename) uidSid gidSid)
        (fun st1 sec1 =>
          ancLoop ok ((dirP filename).comps.length + 1) st1 sec1
            (dirP filename) uidSid gidSid)

/-! ## Dedup-gate lemmas

The apply primitive is the owner-write (`SetNamedSecurityInfo` with
`OWNER_SECURITY_INFORMATION`); `owPaths` lists the paths it was invoked on.
These lemmas establish the gate's contract: a `Perform` on a processed path
emits nothing; any emission marks its path; marks are permanent; and a single
call's emissions are duplicate-free.
-/

theorem owPaths_append (l1 l2 : List Ev) :
    owPaths (l1 ++ l2) = owPaths l1 ++ owPaths l2 := by
  induction l1 with
  | nil => rfl
  | cons e t ih => cases e <;> simp [owPaths, ih]

theorem Perform_processed (ok : String → Bool) (st : MMState) (sec : SecState)
    (f : String) (u g : Option Sid) :
    (Perform ok st sec f u g).st.processedFiles =
      if st.processedFiles.contains f then st.processedFiles
      else f :: st.processedFiles := by
  unfold Perform
  split
  · rfl
  · split <;> rfl

theorem Perform_owPaths (ok : String → Bool) (st : MMState) (sec : SecState)
    (f : String) (u g : Option Sid) :
    owPaths (Perform ok st sec f u g).trace =
      if st.processedFiles.contains f then [] else [f] := by
  unfold Perform
  split
  · rfl
  · split <;> rfl

theorem Perform_mono {q : String} (ok : String → Bool) (st : MMState)
    (sec : SecState) (f : String) (u g : Option Sid)
    (h : q ∈ st.processedFiles) :
    q ∈ (Perform ok st sec f u g).st.processedFiles := by
  rw [Perform_processed]
  split
  · exact h
  · exact List.mem_cons_of_mem _ h

theorem Perform_self_mem (ok : String → Bool) (st : MMState) (sec : SecState)
    (f : String) (u g : Option Sid) :
    f ∈ (Perform ok st sec f u g).st.processedFiles := by
  rw [Perform_processed]
  split
  · next hc => simpa using hc
  · exact List.mem_cons_self _ _

theorem Perform_skip {q : String} (ok : String → Bool) (st : MMState)
    (sec : SecState) (f : String) (u g : Option Sid)
    (h : q ∈ st.processedFiles) :
    q ∉ owPaths (Perform ok st sec f u g).trace := by
  rw [Perform_owPaths]
  split
  · simp
  · next hc =>
    simp only [List.mem_singleton]
    intro he
    subst he
    exact hc (by simpa using h)

theorem Perform_mark {q : String} (ok : String → Bool) (st : MMState)
    (sec : SecState) (f : String) (u g : Option Sid)
    (h : q ∈ owPaths (Perform ok st sec f u g).trace) :
    q ∈ (Perform ok st sec f u g).st.processedFiles := by
  rw [Perform_owPaths] at h
  rw [Perform_processed]
  by_cases hc : st.processedFiles.contains f
  · rw [if_pos hc] at h
    exact absurd h (List.not_mem_nil q)
  · rw [if_neg hc] at h
    rw [if_neg hc]
    simp only [List.mem_singleton] at h
    subst h
    exact List.mem_cons_self _ _

theorem Perform_nodup (ok : String → Bool) (st : MMState) (sec : SecState)
    (f : String) (u g : Option Sid) :
    (owPaths (Perform ok st sec f u g).trace).Nodup := by
  rw [Perform_owPaths]
  split <;> simp

theorem seqRes_mono {q : String} {r : MMRes} {k : MMState → SecState → MMRes}
    (hr : q ∈ r.st.processedFiles)
    (hk : q ∈ r.st.processedFiles → q ∈ (k r.st r.sec).st.processedFiles) :
    q ∈ (seqRes r k).st.processedFiles := by
  unfold seqRes
  split
  · exact hr
  · exact hk hr

theorem seqRes_skip {q : String} {r : MMRes} {k : MMState → SecState → MMRes}
    (hr : q ∉ owPaths r.trace)
    (hk : q ∉ owPaths (k r.st r.sec).trace) :
    q ∉ owPaths (seqRes r k).trace := by
  unfold seqRes
  split
  · exact hr
  · rw [owPaths_append, List.mem_append]
    intro h
    exact h.elim hr hk

theorem seqRes_mark {q : String} {r : MMRes} {k : MMState → SecState → MMRes}
    (hr : q ∈ owPaths r.trace → q ∈ r.st.processedFiles)
    (hmono : q ∈ r.st.processedFiles → q ∈ (k r.st r.sec).st.processedFiles)
    (hk : q ∈ owPaths (k r.st r.sec).trace → q ∈ (k r.st r.sec).st.processedFiles) :
    q ∈ owPaths (seqRes r k).trace → q ∈ (seqRes r k).st.processedFiles := by
  unfold seqRes
  split
  · exact hr
  · rw [owPaths_append, List.mem_append]
    intro h
    exact h.elim (fun h1 => hmono (hr h1)) hk

theorem seqRes_nodup {r : MMRes} {k : MMState → SecState → MMRes}
    (h1 : (owPaths r.trace).Nodup)
    (hmark : ∀ q, q ∈ owPaths r.trace → q ∈ r.st.processedFiles)
    (hskip : ∀ q, q ∈ r.st.processedFiles → q ∉ owPaths (k r.st r.sec).trace)
    (h2 : (owPaths (k r.st r.sec).trace).Nodup) :
    (owPaths (seqRes r k).trace).Nodup := by
  unfold seqRes
  split
  · exact h1
  · rw [owPaths_append]
    exact h1.append h2 (fun q hq1 hq2 => hskip q (hmark q hq1) hq2)

theorem ancLoop_mono (ok : String → Bool) (n : Nat) :
    ∀ (st : MMState) (sec : SecState) (p : GoPath) (u g : Option Sid)
      (q : String), q ∈ st.processedFiles →
      q ∈ (ancLoop ok n st sec p u g).st.processedFiles := by
  induction n with
  | zero =>
    intro st sec p u g q h
    exact Perform_mono _ _ _ _ _ _ h
  | succ n ih =>
    intro st sec p u g q h
    unfold ancLoop
    split
    · refine seqRes_mono (Perform_mono _ _ _ _ _ _ h) (fun h1 => ?_)
      split
      · exact Perform_mono _ _ _ _ _ _ h1
      · exact ih _ _ _ _ _ _ h1
    · exact Perform_mono _ _ _ _ _ _ h

theorem ancLoop_skip (ok : String → Bool) (n : Nat) :
    ∀ (st : MMState) (sec : SecState) (p : GoPath) (u g : Option Sid)
      (q : String), q ∈ st.processedFiles →
      q ∉ owPaths (ancLoop ok n st sec p u g).trace := by
  induction n with
  | zero =>
    intro st sec p u g q h
    exact Perform_skip _ _ _ _ _ _ h
  | succ n ih =>
    intro st sec p u g q h
    unfold ancLoop
    split
    · refine seqRes_skip (Perform_skip _ _ _ _ _ _ h) ?_
      have h1 := Perform_mono (q := q) ok st sec (render p) u g h
      split
      · exact Perform_skip _ _ _ _ _ _ h1
      · exact ih _ _ _ _ _ _ h1
    · exact Perform_skip _ _ _ _ _ _ h

theorem ancLoop_mark (ok : String → Bool) (n : Nat) :
    ∀ (st : MMState) (sec : SecState) (p : GoPath) (u g : Option Sid)
      (q : String), q ∈ owPaths (ancLoop ok n st sec p u g).trace →
      q ∈ (ancLoop ok n st sec p u g).st.processedFiles := by
  induction n with
  | zero =>
    intro st sec p u g q h
    exact Perform_mark _ _ _ _ _ _ h
  | succ n ih =>
    intro st sec p u g q h
    unfold ancLoop at h ⊢
    revert h
    split
    · refine seqRes_mark (Perform_mark _ _ _ _ _ _) (fun h1 => ?_) ?_
      · split
        · exact Perform_mono _ _ _ _ _ _ h1
        · exact ancLoop_mono _ _ _ _ _ _ _ _ h1
      · split
        · exact Perform_mark _ _ _ _ _ _
        · exact ih _ _ _ _ _ _
    · exact Perform_mark _ _ _ _ _ _

theorem ancLoop_nodup (ok : String → Bool) (n : Nat) :
    ∀ (st : MMState) (sec : SecState) (p : GoPath) (u g : Option Sid),
      (owPaths (ancLoop ok n st sec p u g).trace).Nodup := by
  induction n with
  | zero =>
    intro st sec p u g
    exact Perform_nodup _ _ _ _ _ _
  | succ n ih =>
    intro st sec p u g
    unfold ancLoop
    split
    · refine seqRes_nodup (Perform_nodup _ _ _ _ _ _)
        (fun q hq => Perform_mark _ _ _ _ _ _ hq) (fun q hq => ?_) ?_
      · split
        · exact Perform_skip _ _ _ _ _ _ hq
        · exact ancLoop_skip _ _ _ _ _ _ _ _ hq
      · split
        · exact Perform_nodup _ _ _ _ _ _
        · exact ih _ _ _ _ _
    · exact Perform_nodup _ _ _ _ _ _

theorem SetFileUserGroupWin_mono {q : String} (ok : String → Bool)
    (s2s l2s : String → Except String Sid) (st : MMState) (sec : SecState)
    (p : GoPath) (userId groupId : String)
    (h : q ∈ st.processedFiles) :
    q ∈ (SetFileUserGroupWin ok s2s l2s st sec p userId groupId).st.processedFiles := by
  unfold SetFileUserGroupWin
  split
  · exact h
  · split
    · exact h
    · exact seqRes_mono (Perform_mono _ _ _ _ _ _ h)
        (fun h1 => ancLoop_mono _ _ _ _ _ _ _ _ h1)

theorem SetFileUserGroupWin_skip {q : String} (ok : String → Bool)
    (s2s l2s : String → Except String Sid) (st : MMState) (sec : SecState)
    (p : GoPath) (userId groupId : String)
    (h : q ∈ st.processedFiles) :
    q ∉ owPaths (SetFileUserGroupWin ok s2s l2s st sec p userId groupId).trace := by
  unfold SetFileUserGroupWin
  split
  · simp [owPaths]
  · split
    · simp [owPaths]
    · exact seqRes_skip (Perform_skip _ _ _ _ _ _ h)
        (ancLoop_skip _ _ _ _ _ _ _ _ (Perform_mono _ _ _ _ _ _ h))

theorem SetFileUserGroupWin_mark {q : String} (ok : String → Bool)
    (s2s l2s : String → Except String Sid) (st : MMState) (sec : SecState)
    (p : GoPath) (userId groupId : String)
    (h : q ∈ owPaths (SetFileUserGroupWin ok s2s l2s st sec p userId groupId).trace) :
    q ∈ (SetFileUserGroupWin ok s2s l2s st sec p userId groupId).st.processedFiles := by
  unfold SetFileUserGroupWin at h ⊢
  revert h
  split
  · simp [owPaths]
  · split
    · simp [owPaths]
    · exact seqRes_mark (Perform_mark _ _ _ _ _ _)
        (fun h1 => ancLoop_mono _ _ _ _ _ _ _ _ h1)
        (ancLoop_mark _ _ _ _ _ _ _ _)

theorem SetFileUserGroupWin_nodup (ok : String → Bool)
    (s2s l2s : String → Except String Sid) (st : MMState) (sec : SecState)
    (p : GoPath) (userId groupId : String) :
    (owPaths (SetFileUserGroupWin ok s2s l2s st sec p userId groupId).trace).Nodup := by
  unfold SetFileUserGroupWin
  split
  · simp [owPaths]
  · split
    · simp [owPaths]
    · exact seqRes_nodup (Perform_nodup _ _ _ _ _ _)
        (fun q hq => Perform_mark _ _ _ _ _ _ hq)
        (fun q hq => ancLoop_skip _ _ _ _ _ _ _ _ hq)
        (ancLoop_nodup _ _ _ _ _ _ _)

/-! ## Time round-trip lemmas

Re-reading a timestamp and writing it back is exact: the timespec taken from a
`time.Time` reconstructs the same instant, and a FILETIME that was read as
nanoseconds and converted back with `NsecToFiletime` is unchanged (the
division by 100 is exact on values that came from a FILETIME).
-/

theorem timeUnix_toTimespec (t : GoTime) :
    timeUnix (toTimespec t).sec (toTimespec t).nsec = t := by
  unfold timeUnix toTimespec GoTime.unixNano
  cases t with
  | mk v =>
    simp only [GoTime.mk.injEq]
    omega

theorem nsecToFiletime_roundTrip (ft : Filetime) :
    nsecToFiletime (timeUnix 0 ft.nanoseconds).unixNano = ft := by
  unfold nsecToFiletime timeUnix GoTime.unixNano Filetime.nanoseconds
  cases ft with
  | mk v =>
    simp only [Filetime.mk.injEq]
    have h : (0 * 1000000000 + (v - filetimeEpochDiff) * 100 + unixEpochNs
        - unixEpochNs) = (v - filetimeEpochDiff) * 100 := by ring
    rw [h, Int.mul_tdiv_cancel _ (by norm_num)]
    omega

/-! ## Concrete fixtures shared by the witness and counterexample theorems -/

def allOk : String → Bool := fun _ => true

def noOk : String → Bool := fun _ => false

def okSidOracle : String → Except String Sid := fun s => .ok s

def badSidOracle : String → Except String Sid :=
  fun _ => .error "The security ID structure is invalid."

def lookupOkOracle : String → Except String Sid := fun s => .ok ("sid-of-" ++ s)

def badLookupOracle : String → Except String Sid := fun _ => .error "no such account"

def otherErrOracle : String → Except String Sid := fun _ => .error "boom"

def sampleSec : SecState :=
  fun _ => ⟨some "S-1-5-32-544", some "S-1-5-32-545", ["aceX"], true⟩

def samplePath : GoPath := ⟨true, ["a", "b", "c.txt"]⟩

def sampleWinFS : WinFS :=
  fun q => if q == "/x.txt" then some ⟨⟨100⟩, ⟨200⟩, ⟨300⟩⟩ else none

def sampleLinuxFS : LinuxFS :=
  fun q => if q == "/x.txt" then some ⟨⟨1, 2⟩, ⟨3, 4⟩, ⟨5, 6⟩, 10, 20⟩ else none

/-! ## Claim theorems -/

/-- C1 counterexample: the claim is platform-unqualified, but the UID/GID
variant of `SetFileUserGroup` has no dedup gate: applying the same record to
the same path twice performs the native ownership mutation (`os.Lchown`)
twice within one process run, not at most once. -/
theorem C1_counterexample :
    ((SetFileUserGroupLinux sampleLinuxFS "/x.txt" "1000" "1000").2.2 ++
      (SetFileUserGroupLinux
        (SetFileUserGroupLinux sampleLinuxFS "/x.txt" "1000" "1000").2.1
        "/x.txt" "1000" "1000").2.2).count (.lchown "/x.txt" 1000 1000) = 2 := by
  decide

/-- C1 (amended): on the principal-model variant — the one with the
`ProcessedPathSet` dedup gate — the ownership/ACL mutation executes at most
once per path per process run: running `SetFileUserGroup` twice with the same
record (the second run starting from the first run's manager and security
state) invokes the native apply primitive at most once on any given path,
regardless of how that path is reached (as the target or as an ancestor of a
descendant).  The UID/GID variant has no gate (see the counterexample). -/
theorem C1_mutation_at_most_once (ok : String → Bool)
    (s2s l2s : String → Except String Sid) (st : MMState) (sec : SecState)
    (p : GoPath) (userId groupId : String) (q : String) :
    ((owPaths ((SetFileUserGroupWin ok s2s l2s st sec p userId groupId).trace ++
      (SetFileUserGroupWin ok s2s l2s
        (SetFileUserGroupWin ok s2s l2s st sec p userId groupId).st
        (SetFileUserGroupWin ok s2s l2s st sec p userId groupId).sec
        p userId groupId).trace)).count q) ≤ 1 := by
  rw [owPaths_append, List.count_append]
  have h1 : (owPaths (SetFileUserGroupWin ok s2s l2s st sec p userId groupId).trace).count q ≤ 1 :=
    List.nodup_iff_count_le_one.mp
      (SetFileUserGroupWin_nodup ok s2s l2s st sec p userId groupId) q
  have h2 : (owPaths (SetFileUserGroupWin ok s2s l2s
      (SetFileUserGroupWin ok s2s l2s st sec p userId groupId).st
      (SetFileUserGroupWin ok s2s l2s st sec p userId groupId).sec
      p userId groupId).trace).count q ≤ 1 :=
    List.nodup_iff_count_le_one.mp (SetFileUserGroupWin_nodup _ _ _ _ _ _ _ _) q
  by_cases hq : q ∈ owPaths (SetFileUserGroupWin ok s2s l2s st sec p userId groupId).trace
  · have hm := SetFileUserGroupWin_mark ok s2s l2s st sec p userId groupId hq
    have hn := SetFileUserGroupWin_skip ok s2s l2s
      (SetFileUserGroupWin ok s2s l2s st sec p userId groupId).st
      (SetFileUserGroupWin ok s2s l2s st sec p userId groupId).sec
      p userId groupId hm
    have h0 : (owPaths (SetFileUserGroupWin ok s2s l2s
        (SetFileUserGroupWin ok s2s l2s st sec p userId groupId).st
        (SetFileUserGroupWin ok s2s l2s st sec p userId groupId).sec
        p userId groupId).trace).count q = 0 := List.count_eq_zero.mpr hn
    omega
  · have h0 : (owPaths (SetFileUserGroupWin ok s2s l2s st sec p userId groupId).trace).count q = 0 :=
      List.count_eq_zero.mpr hq
    omega

/-- C2 counterexample: for the record `{path: "/a/b/c.txt"}` from an empty
processed set, the claim says ownership is applied only to `c.txt`'s path,
`/a/b` and `/a` ("up to but not including the filesystem root") and that the
processed set then holds exactly those three paths — but the walk's post-loop
`Perform(parentDir)` also applies ownership to the root `/`, and the processed
set holds four paths. -/
theorem C2_counterexample :
    owPaths (SetFileUserGroupWin allOk okSidOracle okSidOracle ⟨[]⟩ sampleSec
        samplePath "1001" "1001").trace = ["/a/b/c.txt", "/a/b", "/a", "/"]
    ∧ (SetFileUserGroupWin allOk okSidOracle okSidOracle ⟨[]⟩ sampleSec
        samplePath "1001" "1001").st.processedFiles
      = ["/", "/a", "/a/b", "/a/b/c.txt"] := by
  exact ⟨by decide, by decide⟩

/-- C2 (amended): the propagation applies ownership to the target and to
every ancestor INCLUDING the walk's terminal directory (the filesystem root
for absolute paths), each distinct path at most once; for the record
`{path: "/a/b/c.txt"}` with no prior processed paths, ownership is applied to
`/a/b/c.txt`, `/a/b`, `/a` and `/`, each exactly once, and the processed set
afterwards holds exactly those four paths. -/
theorem C2_walk_chain_each_once :
    (∀ (ok : String → Bool) (s2s l2s : String → Except String Sid)
        (st : MMState) (sec : SecState) (p : GoPath) (userId groupId : String),
      (owPaths (SetFileUserGroupWin ok s2s l2s st sec p userId groupId).trace).Nodup)
    ∧ owPaths (SetFileUserGroupWin allOk okSidOracle okSidOracle ⟨[]⟩ sampleSec
        samplePath "1001" "1001").trace = ["/a/b/c.txt", "/a/b", "/a", "/"]
    ∧ (SetFileUserGroupWin allOk okSidOracle okSidOracle ⟨[]⟩ sampleSec
        samplePath "1001" "1001").st.processedFiles
      = ["/", "/a", "/a/b", "/a/b/c.txt"] :=
  ⟨fun ok s2s l2s st sec p userId groupId =>
    SetFileUserGroupWin_nodup ok s2s l2s st sec p userId groupId,
   by decide, by decide⟩

/-- C9: the dedup gate marks a path processed before the outcome of its
native apply is known: the path is in `processedFiles` after `Perform` even
when the apply failed, so a later `Perform` (or a later `SetFileUserGroup`
reaching the path) issues no native call at all — at-most-once, not
exactly-once-on-success. -/
theorem C9_marked_before_outcome :
    (∀ (ok : String → Bool) (st : MMState) (sec : SecState) (f : String)
        (u g : Option Sid),
      f ∈ (Perform ok st sec f u g).st.processedFiles)
    ∧ (∀ (ok ok2 : String → Bool) (st : MMState) (sec sec2 : SecState)
        (f : String) (u g u2 g2 : Option Sid),
      ok f = false → f ∉ st.processedFiles →
      (Perform ok st sec f u g).res = .error (.applyFailed f)
      ∧ (Perform ok2 (Perform ok st sec f u g).st sec2 f u2 g2).trace = []
      ∧ (Perform ok2 (Perform ok st sec f u g).st sec2 f u2 g2).res = .ok ())
    ∧ (∀ (ok : String → Bool) (s2s l2s : String → Except String Sid)
        (st : MMState) (sec : SecState) (p : GoPath)
        (userId groupId : String) (q : String),
      q ∈ st.processedFiles →
      q ∉ owPaths (SetFileUserGroupWin ok s2s l2s st sec p userId groupId).trace) := by
  refine ⟨fun ok st sec f u g => Perform_self_mem ok st sec f u g, ?_,
    fun ok s2s l2s st sec p userId groupId q h =>
      SetFileUserGroupWin_skip ok s2s l2s st sec p userId groupId h⟩
  intro ok ok2 st sec sec2 f u g u2 g2 hok hmem
  have hc : st.processedFiles.contains f = false := by simpa using hmem
  have hres : Perform ok st sec f u g =
      ⟨⟨f :: st.processedFiles⟩, sec, [.ownerWrite f u g], .error (.applyFailed f)⟩ := by
    unfold Perform
    rw [if_neg (by simpa using hmem), if_neg (by simp [hok])]
  rw [hres]
  refine ⟨rfl, ?_, ?_⟩ <;>
    · unfold Perform
      rw [if_pos (by simp)]

/-- Witness for C9: a failing apply on a fresh path, followed by a retry that
issues no native call, plus a processed path never touched by a later walk. -/
theorem C9_marked_before_outcome_witness :
    noOk "/a/f.txt" = false
    ∧ "/a/f.txt" ∉ (MMState.mk []).processedFiles
    ∧ ((Perform noOk ⟨[]⟩ sampleSec "/a/f.txt" none none).res
        = .error (.applyFailed "/a/f.txt")
       ∧ (Perform allOk (Perform noOk ⟨[]⟩ sampleSec "/a/f.txt" none none).st
          sampleSec "/a/f.txt" none none).trace = []
       ∧ (Perform allOk (Perform noOk ⟨[]⟩ sampleSec "/a/f.txt" none none).st
          sampleSec "/a/f.txt" none none).res = .ok ())
    ∧ ("/q" ∈ (MMState.mk ["/q"]).processedFiles
       ∧ "/q" ∉ owPaths (SetFileUserGroupWin allOk okSidOracle okSidOracle
          ⟨["/q"]⟩ sampleSec samplePath "1001" "1001").trace) :=
  ⟨rfl, by decide,
   C9_marked_before_outcome.2.1 noOk allOk ⟨[]⟩ sampleSec sampleSec "/a/f.txt"
     none none none none rfl (by decide),
   ⟨by decide,
    C9_marked_before_outcome.2.2 allOk okSidOracle okSidOracle ⟨["/q"]⟩
      sampleSec samplePath "1001" "1001" "/q" (by decide)⟩⟩

/-- C10: on the UID/GID platform, `GetFileTime` fills the creation-time
position from the stat structure's status-change time `Ctim` (Linux `stat`
exposes no true creation timestamp), the access position from `Atim`, and the
modification position from the portable `ModTime` field (`Mtim`). -/
theorem C10_ctim_in_creation_position (fs : LinuxFS) (f : String) (st : Stat_t)
    (h : fs f = some st) :
    GetFileTimeLinux fs f = .ok (timeUnix st.Atim.sec st.Atim.nsec,
      timeUnix st.Mtim.sec st.Mtim.nsec, timeUnix st.Ctim.sec st.Ctim.nsec) := by
  unfold GetFileTimeLinux
  rw [h]

/-- Witness for C10 at a concrete filesystem. -/
theorem C10_ctim_in_creation_position_witness :
    sampleLinuxFS "/x.txt" = some ⟨⟨1, 2⟩, ⟨3, 4⟩, ⟨5, 6⟩, 10, 20⟩
    ∧ GetFileTimeLinux sampleLinuxFS "/x.txt"
      = .ok (timeUnix 1 2, timeUnix 3 4, timeUnix 5 6) :=
  ⟨by decide, C10_ctim_in_creation_position sampleLinuxFS "/x.txt"
    ⟨⟨1, 2⟩, ⟨3, 4⟩, ⟨5, 6⟩, 10, 20⟩ (by decide)⟩

/-- C3 (code bug): the claim — and the function's own documentation, which
says `SetFileUserGroup` sets both the UserId and the GroupId — require the
single security-attribute write to set owner AND primary group; but the call
passes `OWNER_SECURITY_INFORMATION` alone, under which the group argument is
ignored, so the object's primary-group attribute is never modified by
`Perform` (first conjunct: for every state, oracle and path), while the owner
is written (concrete evaluation at the failing input). -/
theorem C3_group_attribute_never_written :
    (∀ (ok : String → Bool) (st : MMState) (sec : SecState) (f : String)
        (u g : Option Sid) (q : String),
      ((Perform ok st sec f u g).sec q).group = (sec q).group)
    ∧ ((Perform allOk ⟨[]⟩ sampleSec "/a/f.txt"
        (some "S-1-5-21-1") (some "S-1-5-21-2")).sec "/a/f.txt").owner
      = some "S-1-5-21-1"
    ∧ ((Perform allOk ⟨[]⟩ sampleSec "/a/f.txt"
        (some "S-1-5-21-1") (some "S-1-5-21-2")).sec "/a/f.txt").group
      = some "S-1-5-32-545" := by
  refine ⟨?_, by decide, by decide⟩
  intro ok st sec f u g q
  unfold Perform
  split
  · rfl
  · split
    · by_cases hq : q = f
      · subst hq
        simp [updSec, applySNSI, ownerOnlyFlags, daclUnprotectedFlags]
      · simp [updSec, applySNSI, ownerOnlyFlags, daclUnprotectedFlags, hq]
    · rfl

/-- C4 counterexample: at a concrete object whose DACL is `["aceX"]` (no
entry for the new owner `S-1-5-21-1`), the claim requires the ACL step to
write back the list with one appended full-control entry for the new owner;
the code writes back exactly the list it read — the final DACL is still
`["aceX"]`, with no appended entry (it is, however, written unprotected). -/
theorem C4_counterexample :
    ((Perform allOk ⟨[]⟩ sampleSec "/a/f.txt"
        (some "S-1-5-21-1") (some "S-1-5-21-2")).sec "/a/f.txt").dacl = ["aceX"]
    ∧ ((Perform allOk ⟨[]⟩ sampleSec "/a/f.txt"
        (some "S-1-5-21-1") (some "S-1-5-21-2")).sec "/a/f.txt").daclProtected
      = false
    ∧ (sampleSec "/a/f.txt").dacl = ["aceX"] := by
  exact ⟨by decide, by decide, by decide⟩

/-- C4 (amended): for every path on which the apply executes, the ACL step
reads the object's current discretionary access list and writes the very same
list back as unprotected (still inheriting from the parent); existing entries
are preserved and NO grant entry is appended. -/
theorem C4_dacl_rewritten_unchanged (ok : String → Bool) (st : MMState)
    (sec : SecState) (f : String) (u g : Option Sid)
    (hok : ok f = true) (hnew : f ∉ st.processedFiles) :
    ((Perform ok st sec f u g).sec f).dacl = (sec f).dacl
    ∧ ((Perform ok st sec f u g).sec f).daclProtected = false
    ∧ (Perform ok st sec f u g).trace
      = [.ownerWrite f u g, .daclRead f, .daclWrite f ((sec f).dacl)] := by
  unfold Perform
  rw [if_neg (by simpa using hnew), if_pos hok]
  simp [updSec, applySNSI, ownerOnlyFlags, daclUnprotectedFlags]

/-- Witness for C4 at a concrete state, oracle and path. -/
theorem C4_dacl_rewritten_unchanged_witness :
    allOk "/a/f.txt" = true ∧ "/a/f.txt" ∉ (MMState.mk []).processedFiles
    ∧ (((Perform allOk ⟨[]⟩ sampleSec "/a/f.txt" (some "S-1-5-21-1") none).sec
          "/a/f.txt").dacl = (sampleSec "/a/f.txt").dacl
       ∧ ((Perform allOk ⟨[]⟩ sampleSec "/a/f.txt" (some "S-1-5-21-1") none).sec
          "/a/f.txt").daclProtected = false
       ∧ (Perform allOk ⟨[]⟩ sampleSec "/a/f.txt" (some "S-1-5-21-1") none).trace
         = [.ownerWrite "/a/f.txt" (some "S-1-5-21-1") none, .daclRead "/a/f.txt",
            .daclWrite "/a/f.txt" ((sampleSec "/a/f.txt").dacl)]) :=
  ⟨rfl, by decide,
   C4_dacl_rewritten_unchanged allOk ⟨[]⟩ sampleSec "/a/f.txt"
     (some "S-1-5-21-1") none rfl (by decide)⟩

/-- C7 counterexample: the claim says that with both identity strings empty
the set-ownership operation is a no-op returning success on every platform;
on the UID/GID variant `strconv.Atoi("")` fails, so the call returns an
`InvalidOwnershipFormatError` instead of success (no filesystem mutation is
performed, but the result is an error, not success). -/
theorem C7_counterexample :
    (SetFileUserGroupLinux sampleLinuxFS "/x.txt" "" "").1
      = .error (.invalidOwnershipFormat (.atoiSyntax ""))
    ∧ (SetFileUserGroupLinux sampleLinuxFS "/x.txt" "" "").2.2 = [] := by
  exact ⟨by decide, by decide⟩

/-- C7 (amended): with both identity strings empty, the principal-model
variant is a no-op returning success and touching nothing; the UID/GID
variant instead fails the decimal parse and returns
`InvalidOwnershipFormatError` — also without touching the filesystem. -/
theorem C7_both_empty_identities :
    (∀ (ok : String → Bool) (s2s l2s : String → Except String Sid)
        (st : MMState) (sec : SecState) (p : GoPath),
      SetFileUserGroupWin ok s2s l2s st sec p "" "" = ⟨st, sec, [], .ok ()⟩)
    ∧ (∀ (fs : LinuxFS) (f : String),
      SetFileUserGroupLinux fs f "" ""
        = (.error (.invalidOwnershipFormat (.atoiSyntax "")), fs, [])) :=
  ⟨fun _ _ _ _ _ _ => rfl, fun _ _ => rfl⟩

/-- C8: identity translation.  On the UID/GID model `Atoi "1000"` yields
1000 and any string the decimal parse rejects makes `SetFileUserGroup` fail
with `InvalidOwnershipFormatError` wrapping the parse error (concretely,
`"not-a-number"` fails with a syntax error).  On the principal model,
`StringAsSid` first tries the direct SID-string parse; when that fails with
the invalid-structure error it falls back to an account-name lookup; when the
lookup also fails the result is `InvalidOwnershipFormatError` wrapping the
lookup error; a direct-parse failure of any other kind is wrapped without
attempting the lookup. -/
theorem C8_identity_translation :
    goAtoi "1000" = .ok 1000
    ∧ goAtoi "not-a-number" = .error (.atoiSyntax "not-a-number")
    ∧ (∀ (fs : LinuxFS) (f s g : String) (e : WrapErr), goAtoi s = .error e →
        SetFileUserGroupLinux fs f s g
          = (.error (.invalidOwnershipFormat e), fs, []))
    ∧ (∀ (s2s l2s : String → Except String Sid) (s : String) (sid : Sid),
        s2s s = .ok sid → StringAsSid s2s l2s s = .ok sid)
    ∧ (∀ (s2s l2s : String → Except String Sid) (s e : String) (sid : Sid),
        s2s s = .error e → goStringsContains e invalidSidStructureMsg = true →
        l2s s = .ok sid → StringAsSid s2s l2s s = .ok sid)
    ∧ (∀ (s2s l2s : String → Except String Sid) (s e e2 : String),
        s2s s = .error e → goStringsContains e invalidSidStructureMsg = true →
        l2s s = .error e2 →
        StringAsSid s2s l2s s = .error (.invalidOwnershipFormat (.sidLookup e2)))
    ∧ (∀ (s2s l2s : String → Except String Sid) (s e : String),
        s2s s = .error e → goStringsContains e invalidSidStructureMsg = false →
        StringAsSid s2s l2s s = .error (.invalidOwnershipFormat (.sidParse e))) := by
  refine ⟨by decide, by decide, ?_, ?_, ?_, ?_, ?_⟩
  · intro fs f s g e he
    unfold SetFileUserGroupLinux
    rw [he]
  · intro s2s l2s s sid h
    unfold StringAsSid
    rw [h]
  · intro s2s l2s s e sid h hcont hl
    unfold StringAsSid
    rw [h]
    simp [hcont, hl]
  · intro s2s l2s s e e2 h hcont hl
    unfold StringAsSid
    rw [h]
    simp [hcont, hl]
  · intro s2s l2s s e h hcont
    unfold StringAsSid
    rw [h]
    simp [hcont]

/-- Witness for C8 at concrete strings and oracles, one instance per
hypothesis-bearing conjunct. -/
theorem C8_identity_translation_witness :
    SetFileUserGroupLinux sampleLinuxFS "/x.txt" "not-a-number" "0"
      = (.error (.invalidOwnershipFormat (.atoiSyntax "not-a-number")),
         sampleLinuxFS, [])
    ∧ StringAsSid okSidOracle okSidOracle "S-1-1-0" = .ok "S-1-1-0"
    ∧ StringAsSid badSidOracle lookupOkOracle "Users" = .ok "sid-of-Users"
    ∧ StringAsSid badSidOracle badLookupOracle "Nobody"
      = .error (.invalidOwnershipFormat (.sidLookup "no such account"))
    ∧ StringAsSid otherErrOracle okSidOracle "S-1-1-0"
      = .error (.invalidOwnershipFormat (.sidParse "boom")) :=
  ⟨C8_identity_translation.2.2.1 sampleLinuxFS "/x.txt" "not-a-number" "0"
     (.atoiSyntax "not-a-number") (by decide),
   C8_identity_translation.2.2.2.1 okSidOracle okSidOracle "S-1-1-0" "S-1-1-0" rfl,
   C8_identity_translation.2.2.2.2.1 badSidOracle lookupOkOracle "Users"
     "The security ID structure is invalid." "sid-of-Users" rfl (by decide) rfl,
   C8_identity_translation.2.2.2.2.2.1 badSidOracle badLookupOracle "Nobody"
     "The security ID structure is invalid." "no such account" rfl (by decide) rfl,
   C8_identity_translation.2.2.2.2.2.2 otherErrOracle okSidOracle "S-1-1-0"
     "boom" rfl (by decide)⟩

/-- C5 counterexample: the claim says that whenever access and modification
time are both absent, `writeTimes` returns immediately with zero native write
calls; on the Windows variant the fast return additionally requires creation
time to be absent, so with `accessTime` and `modificationTime` absent but
`creationTime` present the call succeeds AND performs a native write. -/
theorem C5_counterexample :
    (SetFileTimeWin sampleWinFS "/x.txt" zeroTime zeroTime (timeUnix 5 0)).2.2 ≠ []
    ∧ (SetFileTimeWin sampleWinFS "/x.txt" zeroTime zeroTime (timeUnix 5 0)).1
      = .ok () := by
  exact ⟨by decide, by decide⟩

/-- C5 (amended): with access and modification time both absent, the Linux
variant returns success immediately, leaves the filesystem untouched and
performs zero native write calls; the Windows variant does the same only when
creation time is ALSO absent. -/
theorem C5_skip_when_all_absent :
    (∀ (fs : LinuxFS) (f : String) (a m c : GoTime),
      a.isZero = true → m.isZero = true →
      SetFileTimeLinux fs f a m c = (.ok (), fs, []))
    ∧ (∀ (fs : WinFS) (f : String) (a m c : GoTime),
      a.isZero = true → m.isZero = true → c.isZero = true →
      SetFileTimeWin fs f a m c = (.ok (), fs, [])) := by
  constructor
  · intro fs f a m c ha hm
    unfold SetFileTimeLinux
    rw [if_pos (by simp [ha, hm])]
  · intro fs f a m c ha hm hc
    unfold SetFileTimeWin
    rw [if_pos (by simp [ha, hm, hc])]

/-- Witness for C5 at concrete filesystems. -/
theorem C5_skip_when_all_absent_witness :
    zeroTime.isZero = true
    ∧ SetFileTimeLinux sampleLinuxFS "/x.txt" zeroTime zeroTime (timeUnix 5 0)
      = (.ok (), sampleLinuxFS, [])
    ∧ SetFileTimeWin sampleWinFS "/x.txt" zeroTime zeroTime zeroTime
      = (.ok (), sampleWinFS, []) :=
  ⟨rfl,
   C5_skip_when_all_absent.1 sampleLinuxFS "/x.txt" zeroTime zeroTime
     (timeUnix 5 0) rfl rfl,
   C5_skip_when_all_absent.2 sampleWinFS "/x.txt" zeroTime zeroTime zeroTime
     rfl rfl rfl⟩

/-- C6 counterexample: the claim says every unset field is refilled by
re-reading the file so the native write never clobbers an unspecified field;
on the Windows variant the `else if` chain refills only the FIRST unset
field, so with `accessTime` and `creationTime` both absent and
`modificationTime` present, the write replaces the file's creation FILETIME
(pre-call value 100) with a value derived from the zero timestamp. -/
theorem C6_counterexample :
    ((SetFileTimeWin sampleWinFS "/x.txt" zeroTime (timeUnix 7 0) zeroTime).2.1
        "/x.txt").map (·.CreationTime) ≠ some ⟨100⟩
    ∧ (sampleWinFS "/x.txt").map (·.CreationTime) = some ⟨100⟩
    ∧ (SetFileTimeWin sampleWinFS "/x.txt" zeroTime (timeUnix 7 0) zeroTime).1
      = .ok () := by
  exact ⟨by decide, by decide, by decide⟩

/-- C6 (amended): with exactly one of access/modification set, the OTHER of
that pair is refilled by re-reading the file before the write, so the access
and modification fields are never zeroed: on Linux, with access absent the
post-call observed access time equals its pre-call value and the observed
modification time equals the supplied value, and symmetrically with
modification absent; on Windows likewise for the access/modification
FILETIME fields (the supplied value lands truncated to the 100ns FILETIME
grid) — but the Windows chain refills at most one field per call, so the
creation field is only safe when it is itself set (see the counterexample). -/
theorem C6_unset_pair_field_refilled :
    (∀ (fs : LinuxFS) (f : String) (st : Stat_t) (m c : GoTime),
      fs f = some st → m.isZero = false →
      (SetFileTimeLinux fs f zeroTime m c).1 = .ok ()
      ∧ Except.map (·.1) (GetFileTimeLinux ((SetFileTimeLinux fs f zeroTime m c).2.1) f)
        = Except.map (·.1) (GetFileTimeLinux fs f)
      ∧ Except.map (·.2.1) (GetFileTimeLinux ((SetFileTimeLinux fs f zeroTime m c).2.1) f)
        = .ok m)
    ∧ (∀ (fs : LinuxFS) (f : String) (st : Stat_t) (a c : GoTime),
      fs f = some st → a.isZero = false →
      (SetFileTimeLinux fs f a zeroTime c).1 = .ok ()
      ∧ Except.map (·.2.1) (GetFileTimeLinux ((SetFileTimeLinux fs f a zeroTime c).2.1) f)
        = Except.map (·.2.1) (GetFileTimeLinux fs f)
      ∧ Except.map (·.1) (GetFileTimeLinux ((SetFileTimeLinux fs f a zeroTime c).2.1) f)
        = .ok a)
    ∧ (∀ (fs : WinFS) (f : String) (d : Win32FileAttributeData) (m c : GoTime),
      fs f = some d → m.isZero = false →
      (SetFileTimeWin fs f zeroTime m c).1 = .ok ()
      ∧ ((SetFileTimeWin fs f zeroTime m c).2.1 f).map (·.LastAccessTime)
        = some d.LastAccessTime
      ∧ ((SetFileTimeWin fs f zeroTime m c).2.1 f).map (·.LastWriteTime)
        = some (nsecToFiletime m.unixNano))
    ∧ (∀ (fs : WinFS) (f : String) (d : Win32FileAttributeData) (a c : GoTime),
      fs f = some d → a.isZero = false →
      (SetFileTimeWin fs f a zeroTime c).1 = .ok ()
      ∧ ((SetFileTimeWin fs f a zeroTime c).2.1 f).map (·.LastWriteTime)
        = some d.LastWriteTime
      ∧ ((SetFileTimeWin fs f a zeroTime c).2.1 f).map (·.LastAccessTime)
        = some (nsecToFiletime a.unixNano)) := by
  have hz : zeroTime.isZero = true := rfl
  refine ⟨?_, ?_, ?_, ?_⟩
  · intro fs f st m c h hm
    refine ⟨?_, ?_, ?_⟩ <;>
      simp [SetFileTimeLinux, GetFileTimeLinux, Except.map, h, hm, hz,
        updLinuxFS, timeUnix_toTimespec]
  · intro fs f st a c h ha
    refine ⟨?_, ?_, ?_⟩ <;>
      simp [SetFileTimeLinux, GetFileTimeLinux, Except.map, h, ha, hz,
        updLinuxFS, timeUnix_toTimespec]
  · intro fs f d m c h hm
    refine ⟨?_, ?_, ?_⟩ <;>
      simp [SetFileTimeWin, GetFileTimeWin, Except.map, h, hm, hz, updWinFS,
        nsecToFiletime_roundTrip]
  · intro fs f d a c h ha
    refine ⟨?_, ?_, ?_⟩ <;>
      simp [SetFileTimeWin, GetFileTimeWin, Except.map, h, ha, hz, updWinFS,
        nsecToFiletime_roundTrip]

/-- Witness for C6 at a concrete filesystem, one instance per conjunct. -/
theorem C6_unset_pair_field_refilled_witness :
    sampleLinuxFS "/x.txt" = some ⟨⟨1, 2⟩, ⟨3, 4⟩, ⟨5, 6⟩, 10, 20⟩
    ∧ (timeUnix 7 0).isZero = false
    ∧ Except.map (·.1)
        (GetFileTimeLinux ((SetFileTimeLinux sampleLinuxFS "/x.txt" zeroTime
          (timeUnix 7 0) zeroTime).2.1) "/x.txt")
      = Except.map (·.1) (GetFileTimeLinux sampleLinuxFS "/x.txt")
    ∧ Except.map (·.2.1)
        (GetFileTimeLinux ((SetFileTimeLinux sampleLinuxFS "/x.txt" (timeUnix 7 0)
          zeroTime zeroTime).2.1) "/x.txt")
      = Except.map (·.2.1) (GetFileTimeLinux sampleLinuxFS "/x.txt")
    ∧ ((SetFileTimeWin sampleWinFS "/x.txt" zeroTime (timeUnix 7 0)
        (timeUnix 9 0)).2.1 "/x.txt").map (·.LastAccessTime) = some ⟨200⟩
    ∧ ((SetFileTimeWin sampleWinFS "/x.txt" (timeUnix 7 0) zeroTime
        (timeUnix 9 0)).2.1 "/x.txt").map (·.LastWriteTime) = some ⟨300⟩ :=
  ⟨by decide, by decide,
   (C6_unset_pair_field_refilled.1 sampleLinuxFS "/x.txt"
     ⟨⟨1, 2⟩, ⟨3, 4⟩, ⟨5, 6⟩, 10, 20⟩ (timeUnix 7 0) zeroTime (by decide) rfl).2.1,
   (C6_unset_pair_field_refilled.2.1 sampleLinuxFS "/x.txt"
     ⟨⟨1, 2⟩, ⟨3, 4⟩, ⟨5, 6⟩, 10, 20⟩ (timeUnix 7 0) zeroTime (by decide) rfl).2.1,
   (C6_unset_pair_field_refilled.2.2.1 sampleWinFS "/x.txt"
     ⟨⟨100⟩, ⟨200⟩, ⟨300⟩⟩ (timeUnix 7 0) (timeUnix 9 0) (by decide) rfl).2.1,
   (C6_unset_pair_field_refilled.2.2.2 sampleWinFS "/x.txt"
     ⟨⟨100⟩, ⟨200⟩, ⟨300⟩⟩ (timeUnix 7 0) (timeUnix 9 0) (by decide) rfl).2.1⟩

end S5cmd
